import Mathlib

/-!
Shallow embedding of the CornHole game engine (`score.py`).

Conventions of the embedding:
* Python machine-independent `int` values become `ℤ` (scores, points) or `ℕ`
  (turn number, board number); Python `float` times and sensor weights become `ℚ`.
* The mutable `Game` object becomes an immutable structure; each mutating method
  becomes a function `Game → ... → Game`.
* `time.time()` is modelled by an explicit `now : ℚ` parameter supplied to any
  method that reads the clock; a single call's clock reads all return `now`.
* The injected callbacks (`read_tag_ids`, `get_button_state`) become explicit
  function arguments; the display and log callbacks have no effect on the game
  fields modelled here and are omitted.
* Python dictionaries keyed by `Tag` (whose `__hash__`/`__eq__` use only `rfid`)
  become functions keyed by the rfid string; the Python `set` of verified tags
  becomes a duplicate-free list of rfid strings.
-/

/-- Enum `Team` from `score.py`. -/
inductive Team where
  | UNKNOWN
  | A
  | B
deriving DecidableEq, Repr

/-- Class `Tag` from `score.py`: an RFID id (string) bound to a team.
Python equality and hashing use only `rfid`. -/
structure Tag where
  rfid : String
  team : Team
deriving DecidableEq, Repr

/-- Enum `GameEvent` from `score.py`. -/
inductive GameEvent where
  | TAGS_CHANGED_ON_BOARD_1
  | TAGS_CHANGED_ON_BOARD_2
  | NO_CHANGE
  | BUTTON_PRESSED
  | TIMEOUT
  | QUIT
deriving DecidableEq, Repr

/-- Enum `GameState` from `score.py`. -/
inductive GameState where
  | START
  | PLAYING_BOARD_1
  | PLAYING_BOARD_2
  | TURN_OVER
  | BOARD_CLEAR
  | GAME_OVER
deriving DecidableEq, Repr

/-- Enum `Location` from `score.py`. -/
inductive Location where
  | UNKNOWN
  | BOARD_1
  | HOLE_1
  | BOARD_2
  | HOLE_2
deriving DecidableEq, Repr

/-- Class `Sensor` from `score.py`.  The `read_tag_ids` callback is not stored;
`Game.read_sensors` receives it as an argument instead.  `latest_reading` is the
cached result of the most recent read. -/
structure Sensor where
  id : String
  weight : ℚ
  location : Location
  latest_reading : List String
  points_to_award : ℤ
deriving DecidableEq, Repr

/-- Result of the `get_button_state` callback: `[board1, board2, quit_signal]`. -/
structure ButtonState where
  board1 : Bool
  board2 : Bool
  quit_signal : Bool
deriving DecidableEq, Repr

/-- Class `Game` from `score.py`: the fields read or written by the modelled
methods.  Callback fields (`display_scores`, `get_button_state`, `log`) are
passed as function arguments where needed instead of being stored. -/
structure Game where
  team_a_game_score : ℤ
  team_b_game_score : ℤ
  team_a_turn_score : ℤ
  team_b_turn_score : ℤ
  last_board_played : ℕ
  turn_number : ℕ
  time_of_turn_start : ℚ
  state : GameState
  sensors : List Sensor
  tags : List Tag
  minimum_sensor_weight : ℚ
  rfid_polling_interval_in_seconds : ℚ
  button_polling_interval_in_seconds : ℚ
  timeout_in_seconds : ℚ
  time_of_last_sensor_read : ℚ
  time_of_last_button_read : ℚ

/-- Method `Game.get_sensors_for_location`: the sensors installed at the location. -/
def get_sensors_for_location (g : Game) (location : Location) : List Sensor :=
  g.sensors.filter (fun sensor => decide (sensor.location = location))

/-- Method `Game.get_tags_for_team`: the roster tags belonging to the team. -/
def get_tags_for_team (g : Game) (team : Team) : List Tag :=
  g.tags.filter (fun tag => decide (tag.team = team))

/-- Method `Game.get_tag_by_id`: first roster tag with the given rfid, or none
(Python `(list(filter(...)) or [None])[0]`). -/
def get_tag_by_id (g : Game) (rfid : String) : Option Tag :=
  (g.tags.filter (fun tag => tag.rfid == rfid)).head?

/-- Loop state of `Game.tally_location`: the two defaultdicts (keyed by the
tag's rfid, since Python `Tag` hashes and compares by rfid) and the set of
verified tags (kept as a duplicate-free list of rfids). -/
structure TallyState where
  max_score_per_tag : String → ℤ
  hits_per_tag : String → ℚ
  verified_tags : List String

/-- Initial `TallyState`: both defaultdicts default to 0, no verified tags. -/
def initTallyState : TallyState :=
  { max_score_per_tag := fun _ => 0
    hits_per_tag := fun _ => 0
    verified_tags := [] }

/-- Body of the inner loop of `Game.tally_location` for one rfid occurrence in
one sensor's `latest_reading`: look the tag up in the roster, check that it
belongs to the team (Python `tag in tags_for_team`, a set-membership test that
compares by rfid), and update the maps and the verified set.  The roster and
threshold are passed explicitly so that the loop depends only on the data the
Python code reads. -/
def tagStep (tags : List Tag) (θ : ℚ) (team : Team) (points : ℤ) (weight : ℚ)
    (st : TallyState) (rfid : String) : TallyState :=
  match (tags.filter (fun tag => tag.rfid == rfid)).head? with
  | none => st
  | some tag =>
      if (tags.filter (fun t => decide (t.team = team))).any (fun t => t.rfid == tag.rfid) then
        let m := max (st.max_score_per_tag tag.rfid) points
        let h := st.hits_per_tag tag.rfid + weight
        { max_score_per_tag := fun r => if r = tag.rfid then m else st.max_score_per_tag r
          hits_per_tag := fun r => if r = tag.rfid then h else st.hits_per_tag r
          verified_tags :=
            if θ ≤ h then
              if tag.rfid ∈ st.verified_tags then st.verified_tags
              else st.verified_tags ++ [tag.rfid]
            else st.verified_tags }
      else st

/-- Body of the outer loop of `Game.tally_location` for one sensor: fold
`tagStep` over the sensor's cached `latest_reading`. -/
def sensorStep (tags : List Tag) (θ : ℚ) (team : Team) (st : TallyState)
    (sensor : Sensor) : TallyState :=
  sensor.latest_reading.foldl
    (fun st2 rfid => tagStep tags θ team sensor.points_to_award sensor.weight st2 rfid) st

/-- Core of `Game.tally_location`, abstracted over the pieces of the game it
reads: the tag roster, `minimum_sensor_weight`, and the sensors at the queried
location.  Runs the two nested loops, then sums `max_score_per_tag` over the
verified tags. -/
def tallyCore (tags : List Tag) (θ : ℚ) (team : Team) (sensorsAt : List Sensor) : ℤ :=
  let st := sensorsAt.foldl (sensorStep tags θ team) initTallyState
  st.verified_tags.foldl (fun tally rfid => tally + st.max_score_per_tag rfid) 0

/-- Method `Game.tally_location`: score for the team at one location, computed from
the cached sensor readings only. -/
def tally_location (g : Game) (team : Team) (location : Location) : ℤ :=
  tallyCore g.tags g.minimum_sensor_weight team (get_sensors_for_location g location)

/-- Method `Game.tally_turn_board_1`. -/
def tally_turn_board_1 (g : Game) (team : Team) : ℤ :=
  tally_location g team Location.BOARD_1 + tally_location g team Location.HOLE_1

/-- Method `Game.tally_turn_board_2`. -/
def tally_turn_board_2 (g : Game) (team : Team) : ℤ :=
  tally_location g team Location.BOARD_2 + tally_location g team Location.HOLE_2

/-- Method `Game.update_turn_score`. -/
def update_turn_score (g : Game) (board_number : ℕ) : Game :=
  if board_number = 1 then
    { g with
      team_a_turn_score := tally_turn_board_1 g Team.A
      team_b_turn_score := tally_turn_board_1 g Team.B
      last_board_played := 1 }
  else
    { g with
      team_a_turn_score := tally_turn_board_2 g Team.A
      team_b_turn_score := tally_turn_board_2 g Team.B
      last_board_played := 2 }

/-- Method `Game.are_boards_clear`. -/
def are_boards_clear (g : Game) : Bool :=
  0 == tally_turn_board_1 g Team.A + tally_turn_board_1 g Team.B

/-- Method `Game.total_score`. -/
def total_score (g : Game) (team : Team) : ℤ :=
  if team = Team.A then
    g.team_a_game_score + max 0 (g.team_a_turn_score - g.team_b_turn_score)
  else
    g.team_b_game_score + max 0 (g.team_b_turn_score - g.team_a_turn_score)

/-- Method `Game.have_reached_winning_score`. -/
def have_reached_winning_score (g : Game) : Bool :=
  decide (21 ≤ total_score g Team.A) || decide (21 ≤ total_score g Team.B)

/-- Method `Game.end_turn`: fold the turn margin into the winning side's game score,
zero the turn scores, advance the turn counter, restart the turn clock. -/
def end_turn (g : Game) (now : ℚ) : Game :=
  let score_diff := g.team_a_turn_score - g.team_b_turn_score
  let g1 :=
    if 0 < score_diff then
      { g with team_a_game_score := g.team_a_game_score + score_diff }
    else
      { g with team_b_game_score := g.team_b_game_score + |score_diff| }
  { g1 with
    team_a_turn_score := 0
    team_b_turn_score := 0
    turn_number := g1.turn_number + 1
    time_of_turn_start := now }

/-- Method `Game.read_sensors`: every sensor's `latest_reading` is replaced by the
result of its `read_tag_ids` callback (here the argument `reads`, applied to
the sensor's id), and `time_of_last_sensor_read` is stamped. -/
def read_sensors (g : Game) (reads : String → List String) (now : ℚ) : Game :=
  { g with
    sensors := g.sensors.map (fun s => { s with latest_reading := reads s.id })
    time_of_last_sensor_read := now }

/-- Final part of `Game.get_event`: the timeout check, reached when no button
press and no tag change was detected. -/
def timeout_check (g : Game) (now : ℚ) : GameEvent × Game :=
  if g.timeout_in_seconds ≤ now - g.time_of_turn_start then
    (GameEvent.TIMEOUT, g)
  else
    (GameEvent.NO_CHANGE, g)

/-- Sensor-and-timeout part of `Game.get_event` (everything after the button
check): if the rfid polling interval has elapsed, re-read the sensors and
compare the four tallies with the stored turn scores; otherwise, or when no tag
change is detected, fall through to the timeout check. -/
def get_event_after_buttons (g : Game) (now : ℚ) (reads : String → List String) :
    GameEvent × Game :=
  if g.rfid_polling_interval_in_seconds ≤ now - g.time_of_last_sensor_read then
    let g2 := read_sensors g reads now
    let a1 := tally_turn_board_1 g2 Team.A
    let b1 := tally_turn_board_1 g2 Team.B
    let a2 := tally_turn_board_2 g2 Team.A
    let b2 := tally_turn_board_2 g2 Team.B
    if 0 < a1 + b1 then
      if a1 ≠ g2.team_a_turn_score ∨ b1 ≠ g2.team_b_turn_score then
        (GameEvent.TAGS_CHANGED_ON_BOARD_1, { g2 with last_board_played := 1 })
      else
        timeout_check g2 now
    else if 0 < a2 + b2 then
      if a2 ≠ g2.team_a_turn_score ∨ b2 ≠ g2.team_b_turn_score then
        (GameEvent.TAGS_CHANGED_ON_BOARD_2, { g2 with last_board_played := 2 })
      else
        timeout_check g2 now
    else if 0 < g2.team_a_turn_score + g2.team_b_turn_score then
      if g2.last_board_played = 1 then
        (GameEvent.TAGS_CHANGED_ON_BOARD_1, g2)
      else
        (GameEvent.TAGS_CHANGED_ON_BOARD_2, g2)
    else
      timeout_check g2 now
  else
    timeout_check g now

/-- Method `Game.get_event`.  `now` models the `time.time()` reads of this call;
`buttons` is what the `get_button_state` callback would return; `reads` is the
per-sensor `read_tag_ids` callback.  If the debounce and button-poll guards
pass, the button state is read (stamping `time_of_last_button_read`); a pressed
board button or a quit signal returns immediately, otherwise control falls
through to the sensor and timeout checks. -/
def get_event (g : Game) (now : ℚ) (buttons : ButtonState)
    (reads : String → List String) : GameEvent × Game :=
  if 4 < now - g.time_of_turn_start ∧
      g.button_polling_interval_in_seconds ≤ now - g.time_of_last_button_read then
    let g1 := { g with time_of_last_button_read := now }
    if buttons.board1 || buttons.board2 then
      (GameEvent.BUTTON_PRESSED, g1)
    else if buttons.quit_signal then
      (GameEvent.QUIT, g1)
    else
      get_event_after_buttons g1 now reads
  else
    get_event_after_buttons g now reads

/-- Method `Game.process_turn_over_state`: the TurnOver handler returns only the next
state; its `display` call does not touch any modelled field. -/
def process_turn_over_state (g : Game) (event : GameEvent) : GameState :=
  if are_boards_clear g then
    GameState.BOARD_CLEAR
  else if have_reached_winning_score g then
    GameState.GAME_OVER
  else if event = GameEvent.TIMEOUT then
    GameState.GAME_OVER
  else if event = GameEvent.BUTTON_PRESSED then
    GameState.GAME_OVER
  else
    GameState.TURN_OVER

/-!
Occurrence view of the tally loop.  The nested loops of `tally_location`
process one `(points_to_award, weight, rfid)` triple per occurrence of an rfid
in a sensor's cached reading; flattening the sensors at a location into that
occurrence list makes the loop amenable to induction.
-/

/-- One occurrence of an rfid in one sensor's cached reading, together with the
sensor's points and weight. -/
structure Occ where
  points : ℤ
  weight : ℚ
  rfid : String
deriving DecidableEq, Repr

/-- All rfid occurrences processed by `tally_location` over the given sensors,
in processing order. -/
def occsOfSensors (sensorsAt : List Sensor) : List Occ :=
  sensorsAt.flatMap (fun s =>
    s.latest_reading.map (fun r => { points := s.points_to_award, weight := s.weight, rfid := r }))

/-- The effective guard of the tally loop body: some roster tag has this rfid
and belongs to the team (Python `get_tag_by_id(rfid) is not None and tag in
tags_for_team`, where tag equality compares rfids). -/
def tagTeamHas (tags : List Tag) (team : Team) (r : String) : Bool :=
  tags.any (fun t => decide (t.team = team) && (t.rfid == r))

/-- Total weight accumulated for rfid `r` over an occurrence list: one
`weight` contribution per occurrence. -/
def occW (l : List Occ) (r : String) : ℚ :=
  ((l.filter (fun o => o.rfid == r)).map Occ.weight).sum

/-- Maximum points for rfid `r` over an occurrence list, starting from the
defaultdict's 0. -/
def occM (l : List Occ) (r : String) : ℤ :=
  ((l.filter (fun o => o.rfid == r)).map Occ.points).foldl max 0

/-!
Spec-side tally definitions, for comparison with `tally_location`.
-/

/-- Modelled from the spec: the "accumulated weight" of a tag at a location as
the spec words it — the sum of the weights of the sensors at that location
that read the tag, each sensor counted once. -/
def sensor_weight_sum (sensorsAt : List Sensor) (r : String) : ℚ :=
  ((sensorsAt.filter (fun s => decide (r ∈ s.latest_reading))).map Sensor.weight).sum

/-- Maximum `points_to_award` among the sensors whose cached reading contains
the rfid (starting from 0, matching the code's defaultdict). -/
def best_points (sensorsAt : List Sensor) (r : String) : ℤ :=
  ((sensorsAt.filter (fun s => decide (r ∈ s.latest_reading))).map Sensor.points_to_award).foldl max 0

/-- Accumulated weight counting each sensor's weight once per occurrence of
the rfid in that sensor's cached reading. -/
def per_occurrence_weight (sensorsAt : List Sensor) (r : String) : ℚ :=
  (sensorsAt.map (fun s => s.weight * ((s.latest_reading.count r : ℕ) : ℚ))).sum

/-- Modelled from the spec: a tag of the team is credited at a location iff the
sum of the weights of the sensors at that location that read it (each sensor
counted once) reaches `minimum_sensor_weight`; each credited tag contributes
the maximum `points_to_award` among those sensors; the tally is the sum over
credited tags. -/
def tally_location_specform (g : Game) (team : Team) (location : Location) : ℤ :=
  let sensorsAt := get_sensors_for_location g location
  let candidates := (sensorsAt.flatMap Sensor.latest_reading).dedup
  ((candidates.filter (fun r =>
      tagTeamHas g.tags team r &&
        decide (g.minimum_sensor_weight ≤ sensor_weight_sum sensorsAt r))).map
    (best_points sensorsAt)).sum

/-- Amended spec-side tally: as `tally_location_specform`, except that the
accumulated weight counts a sensor's weight once per occurrence of the rfid in
that sensor's cached reading. -/
def tally_location_per_occurrence (g : Game) (team : Team) (location : Location) : ℤ :=
  let sensorsAt := get_sensors_for_location g location
  let candidates := (sensorsAt.flatMap Sensor.latest_reading).dedup
  ((candidates.filter (fun r =>
      tagTeamHas g.tags team r &&
        decide (g.minimum_sensor_weight ≤ per_occurrence_weight sensorsAt r))).map
    (best_points sensorsAt)).sum

/-!
Concrete games for witnesses and counterexamples.
-/

/-- A game with the constructor's default configuration, an empty roster and no
sensors, at time 0. -/
def baseGame : Game :=
  { team_a_game_score := 0
    team_b_game_score := 0
    team_a_turn_score := 0
    team_b_turn_score := 0
    last_board_played := 0
    turn_number := 1
    time_of_turn_start := 0
    state := GameState.START
    sensors := []
    tags := []
    minimum_sensor_weight := 1
    rfid_polling_interval_in_seconds := 5 / 2
    button_polling_interval_in_seconds := 1 / 4
    timeout_in_seconds := 45
    time_of_last_sensor_read := 0
    time_of_last_button_read := 0 }

/-- One team-A tag; one board-1 sensor of weight 1/2 (below the threshold 1)
whose cached reading lists the tag's rfid twice. -/
def halfWeightGame : Game :=
  { baseGame with
    tags := [{ rfid := "A1", team := Team.A }]
    sensors := [{ id := "S1", weight := 1 / 2, location := Location.BOARD_1,
                  latest_reading := ["A1", "A1"], points_to_award := 1 }] }

/-- A game whose stored turn scores (5 : 0) do not match the tallies of its
cached readings (no sensors, so every tally is 0). -/
def staleTurnGame : Game :=
  { baseGame with team_a_turn_score := 5 }

/-- One team-A tag; one board-1 sensor (weight 1, points 1) whose cached
reading is empty, so a re-read returning the tag produces a tag change. -/
def pollDemoGame : Game :=
  { baseGame with
    tags := [{ rfid := "A1", team := Team.A }]
    sensors := [{ id := "S1", weight := 1, location := Location.BOARD_1,
                  latest_reading := [], points_to_award := 1 }] }


/-- Guarded form of `tagStep`: its lookup-then-membership test collapses to
`tagTeamHas` (proved in `tagStep_eq_cleanStep` below). -/
def cleanStep (tags : List Tag) (θ : ℚ) (team : Team) (st : TallyState) (o : Occ) :
    TallyState :=
  if tagTeamHas tags team o.rfid then
    { max_score_per_tag := fun r =>
        if r = o.rfid then max (st.max_score_per_tag o.rfid) o.points
        else st.max_score_per_tag r
      hits_per_tag := fun r =>
        if r = o.rfid then st.hits_per_tag o.rfid + o.weight
        else st.hits_per_tag r
      verified_tags :=
        if θ ≤ st.hits_per_tag o.rfid + o.weight then
          if o.rfid ∈ st.verified_tags then st.verified_tags
          else st.verified_tags ++ [o.rfid]
        else st.verified_tags }
  else st

/-- The tally loop state after processing an occurrence list. -/
def runOccs (tags : List Tag) (θ : ℚ) (team : Team) (l : List Occ) : TallyState :=
  l.foldl (cleanStep tags θ team) initTallyState

/-- The identity-determining fields of a sensor: everything except the mutable
reading cache. -/
def sensorFrame (s : Sensor) : String × ℚ × Location × ℤ :=
  (s.id, s.weight, s.location, s.points_to_award)

/-- Replace the cached readings of the sensors located at board 2 (its board
and hole), leaving every other sensor untouched. -/
def set_board_2_readings (g : Game) (f : Sensor → List String) : Game :=
  { g with
    sensors := g.sensors.map (fun s =>
      if s.location = Location.BOARD_2 ∨ s.location = Location.HOLE_2 then
        { s with latest_reading := f s }
      else s) }

/-- The fields of a `Game` that `get_event` must leave unchanged: all scores,
the turn counter, the turn clock, the state-machine state, the roster and
configuration, and every sensor's identity (`sensorFrame`).  `get_event` may
touch only the last-read timestamps, `last_board_played`, and the sensors'
cached readings. -/
def same_scores_and_state (g g' : Game) : Prop :=
  g'.team_a_game_score = g.team_a_game_score ∧
  g'.team_b_game_score = g.team_b_game_score ∧
  g'.team_a_turn_score = g.team_a_turn_score ∧
  g'.team_b_turn_score = g.team_b_turn_score ∧
  g'.turn_number = g.turn_number ∧
  g'.time_of_turn_start = g.time_of_turn_start ∧
  g'.state = g.state ∧
  g'.tags = g.tags ∧
  g'.minimum_sensor_weight = g.minimum_sensor_weight ∧
  g'.rfid_polling_interval_in_seconds = g.rfid_polling_interval_in_seconds ∧
  g'.button_polling_interval_in_seconds = g.button_polling_interval_in_seconds ∧
  g'.timeout_in_seconds = g.timeout_in_seconds ∧
  g'.sensors.map sensorFrame = g.sensors.map sensorFrame

/-!
Lemmas: the tally loop in occurrence form.
-/

/-- The loop body of `tally_location` behaves as `cleanStep`: the roster lookup
followed by the set-membership test is exactly the `tagTeamHas` guard. -/
theorem tagStep_eq_cleanStep (tags : List Tag) (θ : ℚ) (team : Team) (p : ℤ) (w : ℚ)
    (st : TallyState) (r : String) :
    tagStep tags θ team p w st r = cleanStep tags θ team st { points := p, weight := w, rfid := r } := by
  unfold tagStep cleanStep
  cases hh : (tags.filter (fun tag => tag.rfid == r)).head? with
  | none =>
      rw [List.head?_eq_none_iff, List.filter_eq_nil_iff] at hh
      have hno : tagTeamHas tags team r = false := by
        simp only [tagTeamHas]
        rw [List.any_eq_false]
        intro t ht
        simp only [Bool.and_eq_true, not_and]
        intro _
        exact hh t ht
      simp [hno]
  | some tag =>
      have hmem : tag ∈ tags.filter (fun tag => tag.rfid == r) := by
        cases hfl : (tags.filter (fun tag => tag.rfid == r)) with
        | nil => rw [hfl] at hh; simp at hh
        | cons a l =>
            rw [hfl] at hh
            simp only [List.head?_cons, Option.some.injEq] at hh
            rw [← hh]
            exact List.mem_cons_self a l
      obtain ⟨htags, hrfid⟩ := List.mem_filter.mp hmem
      have hr : tag.rfid = r := by simpa using hrfid
      simp only [hr]
      rw [List.any_filter]
      rfl

/-- Folding the per-sensor loop over a sensor list is folding `cleanStep` over
the flattened occurrence list. -/
theorem foldl_sensorStep_eq_occs (tags : List Tag) (θ : ℚ) (team : Team) :
    ∀ (ss : List Sensor) (st : TallyState),
      ss.foldl (sensorStep tags θ team) st =
        (occsOfSensors ss).foldl (cleanStep tags θ team) st := by
  intro ss
  induction ss with
  | nil => intro st; rfl
  | cons s ss ih =>
      intro st
      simp only [List.foldl_cons, occsOfSensors, List.flatMap_cons, List.foldl_append]
      rw [ih]
      simp only [occsOfSensors]
      congr 1
      rw [sensorStep, List.foldl_map]
      congr 1
      funext st2 r
      exact tagStep_eq_cleanStep tags θ team s.points_to_award s.weight st2 r

/-- Rewriting `tallyCore` in occurrence form. -/
theorem tallyCore_eq_runOccs (tags : List Tag) (θ : ℚ) (team : Team) (ss : List Sensor) :
    tallyCore tags θ team ss =
      (runOccs tags θ team (occsOfSensors ss)).verified_tags.foldl
        (fun tally rfid => tally + (runOccs tags θ team (occsOfSensors ss)).max_score_per_tag rfid) 0 := by
  rw [tallyCore, runOccs, foldl_sensorStep_eq_occs]

/-- Appending one occurrence adds its weight to its own rfid's total. -/
theorem occW_append_singleton (l : List Occ) (o : Occ) (r : String) :
    occW (l ++ [o]) r = occW l r + (if o.rfid = r then o.weight else 0) := by
  simp only [occW, List.filter_append, List.map_append, List.sum_append, List.filter_singleton]
  by_cases h : o.rfid = r
  · simp [h]
  · have hb : (o.rfid == r) = false := by simp [h]
    simp [h, hb]

/-- Appending one occurrence maxes its points into its own rfid's best score. -/
theorem occM_append_singleton (l : List Occ) (o : Occ) (r : String) :
    occM (l ++ [o]) r = if o.rfid = r then max (occM l r) o.points else occM l r := by
  simp only [occM, List.filter_append, List.map_append, List.foldl_append, List.filter_singleton]
  by_cases h : o.rfid = r
  · simp [h]
  · have hb : (o.rfid == r) = false := by simp [h]
    simp [h, hb]

/-- Unfolding `runOccs` one occurrence from the right. -/
theorem runOccs_append_singleton (tags : List Tag) (θ : ℚ) (team : Team) (l : List Occ) (o : Occ) :
    runOccs tags θ team (l ++ [o]) = cleanStep tags θ team (runOccs tags θ team l) o := by
  rw [runOccs, List.foldl_append, List.foldl_cons, List.foldl_nil, runOccs]

/-- After the loop, the accumulated hits of an rfid are the per-occurrence
weight total, provided the rfid belongs to the team; otherwise 0. -/
theorem runOccs_hits (tags : List Tag) (θ : ℚ) (team : Team) (l : List Occ) (r : String) :
    (runOccs tags θ team l).hits_per_tag r =
      if tagTeamHas tags team r then occW l r else 0 := by
  induction l using List.reverseRecOn with
  | nil => simp [runOccs, initTallyState, occW]
  | append_singleton l o ih =>
      rw [runOccs_append_singleton, cleanStep]
      by_cases ht : tagTeamHas tags team o.rfid
      · rw [if_pos ht]
        dsimp only
        by_cases hro : r = o.rfid
        · subst hro
          simp [ih, ht, occW_append_singleton]
        · have hro' : ¬(o.rfid = r) := fun h => hro h.symm
          simp [hro, hro', ih, occW_append_singleton]
      · rw [if_neg ht]
        rw [ih]
        by_cases hro : r = o.rfid
        · subst hro
          simp [ht]
        · have hro' : ¬(o.rfid = r) := fun h => hro h.symm
          simp [occW_append_singleton, hro']

/-- After the loop, the best score recorded for an rfid is the per-occurrence
maximum of points, provided the rfid belongs to the team; otherwise 0. -/
theorem runOccs_max (tags : List Tag) (θ : ℚ) (team : Team) (l : List Occ) (r : String) :
    (runOccs tags θ team l).max_score_per_tag r =
      if tagTeamHas tags team r then occM l r else 0 := by
  induction l using List.reverseRecOn with
  | nil => simp [runOccs, initTallyState, occM]
  | append_singleton l o ih =>
      rw [runOccs_append_singleton, cleanStep]
      by_cases ht : tagTeamHas tags team o.rfid
      · rw [if_pos ht]
        dsimp only
        by_cases hro : r = o.rfid
        · subst hro
          simp [ih, ht, occM_append_singleton]
        · have hro' : ¬(o.rfid = r) := fun h => hro h.symm
          simp [hro, hro', ih, occM_append_singleton]
      · rw [if_neg ht]
        rw [ih]
        by_cases hro : r = o.rfid
        · subst hro
          simp [ht]
        · have hro' : ¬(o.rfid = r) := fun h => hro h.symm
          simp [occM_append_singleton, hro']

/-- The verified set of the loop never holds duplicates. -/
theorem runOccs_nodup (tags : List Tag) (θ : ℚ) (team : Team) (l : List Occ) :
    (runOccs tags θ team l).verified_tags.Nodup := by
  induction l using List.reverseRecOn with
  | nil => simp [runOccs, initTallyState]
  | append_singleton l o ih =>
      rw [runOccs_append_singleton, cleanStep]
      by_cases ht : tagTeamHas tags team o.rfid
      · rw [if_pos ht]
        dsimp only
        split_ifs with h1 h2
        · exact ih
        · simp [List.nodup_append, ih, h2]
        · exact ih
      · rw [if_neg ht]
        exact ih

/-- Characterization of the verified set under nonnegative occurrence weights:
an rfid is verified exactly when it belongs to the team, occurs at least once,
and its per-occurrence weight total reaches the threshold. -/
theorem runOccs_mem_verified (tags : List Tag) (θ : ℚ) (team : Team) :
    ∀ (l : List Occ), (∀ o ∈ l, 0 ≤ o.weight) → ∀ r : String,
      (r ∈ (runOccs tags θ team l).verified_tags ↔
        (tagTeamHas tags team r = true ∧ r ∈ l.map Occ.rfid ∧ θ ≤ occW l r)) := by
  intro l
  induction l using List.reverseRecOn with
  | nil => intro _ r; simp [runOccs, initTallyState]
  | append_singleton l o ih =>
      intro hw r
      have hw' : ∀ o' ∈ l, 0 ≤ o'.weight := fun o' h => hw o' (List.mem_append_left _ h)
      have how : 0 ≤ o.weight := hw o (by simp)
      have ihr := ih hw'
      rw [runOccs_append_singleton, cleanStep]
      by_cases ht : tagTeamHas tags team o.rfid
      · rw [if_pos ht]
        dsimp only
        rw [runOccs_hits, if_pos ht]
        by_cases hro : r = o.rfid
        · subst hro
          have hWo : occW (l ++ [o]) o.rfid = occW l o.rfid + o.weight := by
            rw [occW_append_singleton, if_pos rfl]
          by_cases hθ : θ ≤ occW l o.rfid + o.weight
          · rw [if_pos hθ]
            have hmem : o.rfid ∈ (if o.rfid ∈ (runOccs tags θ team l).verified_tags then
                  (runOccs tags θ team l).verified_tags
                else (runOccs tags θ team l).verified_tags ++ [o.rfid]) := by
              split_ifs with hm
              · exact hm
              · exact List.mem_append_right _ (List.mem_cons_self _ _)
            simp only [hWo]
            simp [hmem, ht, hθ]
          · rw [if_neg hθ, ihr o.rfid]
            simp only [hWo]
            constructor
            · rintro ⟨h1, h2, h3⟩
              exact absurd (le_add_of_le_of_nonneg h3 how) hθ
            · rintro ⟨h1, h2, h3⟩
              exact absurd h3 hθ
        · have hro' : ¬(o.rfid = r) := fun h => hro h.symm
          have hWo : occW (l ++ [o]) r = occW l r := by
            rw [occW_append_singleton, if_neg hro', add_zero]
          have hmaps : r ∈ (l ++ [o]).map Occ.rfid ↔ r ∈ l.map Occ.rfid := by
            simp [hro]
          have hstep : (r ∈ (if θ ≤ occW l o.rfid + o.weight then
                (if o.rfid ∈ (runOccs tags θ team l).verified_tags then
                  (runOccs tags θ team l).verified_tags
                 else (runOccs tags θ team l).verified_tags ++ [o.rfid])
              else (runOccs tags θ team l).verified_tags)) ↔
              r ∈ (runOccs tags θ team l).verified_tags := by
            split_ifs <;> simp [hro]
          rw [hstep, ihr r, hWo, hmaps]
      · rw [if_neg ht, ihr r]
        by_cases hro : r = o.rfid
        · subst hro
          simp [ht]
        · have hro' : ¬(o.rfid = r) := fun h => hro h.symm
          have hWo : occW (l ++ [o]) r = occW l r := by
            rw [occW_append_singleton, if_neg hro', add_zero]
          simp [hWo, hro]

/-- Additivity: `occW` distributes over appending occurrence lists. -/
theorem occW_append (l₁ l₂ : List Occ) (r : String) :
    occW (l₁ ++ l₂) r = occW l₁ r + occW l₂ r := by
  simp [occW, List.filter_append, List.map_append, List.sum_append]

/-- Unfolding `occW` on a cons. -/
theorem occW_cons (o : Occ) (l : List Occ) (r : String) :
    occW (o :: l) r = (if o.rfid = r then o.weight else 0) + occW l r := by
  simp only [occW, List.filter_cons]
  by_cases h : o.rfid = r
  · simp [h]
  · have hb : (o.rfid == r) = false := by simp [h]
    simp [h, hb]

/-- The occurrences contributed by one sensor weigh its weight once per
occurrence of the rfid in its reading. -/
theorem occW_map_mk (p : ℤ) (w : ℚ) (r : String) :
    ∀ reading : List String,
      occW (reading.map (fun x => ({ points := p, weight := w, rfid := x } : Occ))) r =
        w * (reading.count r : ℕ) := by
  intro reading
  induction reading with
  | nil => simp [occW]
  | cons x xs ih =>
      rw [List.map_cons, occW_cons, ih, List.count_cons]
      by_cases h : x = r
      · subst h
        rw [if_pos rfl, beq_self_eq_true, if_pos rfl]
        push_cast
        ring
      · have hb : (x == r) = false := by simp [h]
        rw [if_neg h, hb, if_neg (by simp : ¬(false = true))]
        push_cast
        ring

/-- Total occurrence weight over the flattened sensors is the per-occurrence
weight of the sensor list. -/
theorem occW_eq_per_occurrence (r : String) :
    ∀ ss : List Sensor, occW (occsOfSensors ss) r = per_occurrence_weight ss r := by
  intro ss
  induction ss with
  | nil => simp [occsOfSensors, occW, per_occurrence_weight]
  | cons s rest ih =>
      have hcons : per_occurrence_weight (s :: rest) r =
          s.weight * (s.latest_reading.count r : ℕ) + per_occurrence_weight rest r := by
        simp [per_occurrence_weight]
      rw [occsOfSensors, List.flatMap_cons, occW_append, ← occsOfSensors, ih,
        occW_map_mk, hcons]

/-- The rfids of the flattened occurrences are the concatenated readings. -/
theorem occ_rfids (ss : List Sensor) :
    (occsOfSensors ss).map Occ.rfid = ss.flatMap Sensor.latest_reading := by
  induction ss with
  | nil => rfl
  | cons s rest ih =>
      simp only [occsOfSensors, List.flatMap_cons, List.map_append, List.map_map]
      rw [← occsOfSensors, ih]
      congr 1
      exact List.map_id _

/-- Folding max over the points of one sensor's occurrences of an rfid. -/
theorem occ_filter_map_points (p : ℤ) (w : ℚ) (r : String) :
    ∀ (reading : List String) (a : ℤ),
      (((reading.map (fun x => ({ points := p, weight := w, rfid := x } : Occ))).filter
          (fun o => o.rfid == r)).map Occ.points).foldl max a =
        if r ∈ reading then max a p else a := by
  intro reading
  induction reading with
  | nil => intro a; simp
  | cons x xs ih =>
      intro a
      simp only [List.map_cons, List.filter_cons]
      by_cases h : x = r
      · have hb : (({ points := p, weight := w, rfid := x } : Occ).rfid == r) = true := by
          simp [h]
        rw [hb, if_pos (by trivial), List.map_cons, List.foldl_cons, ih]
        have hmem : r ∈ x :: xs := by simp [h]
        rw [if_pos hmem]
        by_cases hx : r ∈ xs
        · rw [if_pos hx, max_assoc, max_self]
        · rw [if_neg hx]
      · have hb : (({ points := p, weight := w, rfid := x } : Occ).rfid == r) = false := by
          simp [h]
        rw [hb, if_neg (by simp : ¬(false = true)), ih]
        have hx : (r ∈ x :: xs) ↔ (r ∈ xs) := by
          constructor
          · intro hc
            rcases List.mem_cons.mp hc with hc1 | hc2
            · exact absurd hc1.symm h
            · exact hc2
          · intro hc
            exact List.mem_cons_of_mem _ hc
        by_cases hm : r ∈ xs
        · rw [if_pos hm, if_pos (hx.mpr hm)]
        · rw [if_neg hm, if_neg (fun hc => hm (hx.mp hc))]

/-- Folding max over the points of all occurrences of an rfid equals folding
over the sensors whose readings contain the rfid. -/
theorem occ_foldl_max_eq (r : String) :
    ∀ (ss : List Sensor) (a : ℤ),
      (((occsOfSensors ss).filter (fun o => o.rfid == r)).map Occ.points).foldl max a =
        ((ss.filter (fun s => decide (r ∈ s.latest_reading))).map
          Sensor.points_to_award).foldl max a := by
  intro ss
  induction ss with
  | nil => intro a; rfl
  | cons s rest ih =>
      intro a
      rw [occsOfSensors, List.flatMap_cons, List.filter_append, List.map_append,
        List.foldl_append, ← occsOfSensors, occ_filter_map_points, ih, List.filter_cons]
      by_cases hm : r ∈ s.latest_reading
      · rw [if_pos hm]
        have hb : decide (r ∈ s.latest_reading) = true := by simp [hm]
        rw [hb, if_pos (by trivial), List.map_cons, List.foldl_cons]
      · rw [if_neg hm]
        have hb : decide (r ∈ s.latest_reading) = false := by simp [hm]
        rw [hb, if_neg (by simp : ¬(false = true))]

/-- Computing `occM` over the flattened sensors gives `best_points`. -/
theorem occM_eq_best_points (r : String) (ss : List Sensor) :
    occM (occsOfSensors ss) r = best_points ss r :=
  occ_foldl_max_eq r ss 0

/-- Folding addition of a keyed value over a list is the sum of the mapped
list. -/
theorem foldl_add_eq_sum_map (m : String → ℤ) :
    ∀ (v : List String) (a : ℤ), v.foldl (fun t r => t + m r) a = a + (v.map m).sum := by
  intro v
  induction v with
  | nil => intro a; simp
  | cons x xs ih => intro a; simp [ih, add_assoc]

/-- C1 (amended): for nonnegative sensor weights, `tally_location` credits a
team tag iff the accumulated weight — counting each sensor's weight once per
occurrence of the tag's rfid in that sensor's cached reading — reaches
`minimum_sensor_weight`, each credited tag contributes the maximum
`points_to_award` among the sensors at the location that read it (once per
tag), and the result is the sum of those per-tag maxima; that is,
`tally_location` agrees with `tally_location_per_occurrence`. -/
theorem claim_C1_theorem (g : Game) (team : Team) (location : Location)
    (hw : ∀ s ∈ g.sensors, 0 ≤ s.weight) :
    tally_location g team location = tally_location_per_occurrence g team location := by
  set sensorsAt := get_sensors_for_location g location with hsens
  set l := occsOfSensors sensorsAt with hl
  have hwocc : ∀ o ∈ l, 0 ≤ o.weight := by
    intro o ho
    rw [hl, occsOfSensors] at ho
    obtain ⟨s, hs, ho2⟩ := List.mem_flatMap.mp ho
    obtain ⟨x, hx, rfl⟩ := List.mem_map.mp ho2
    have hsg : s ∈ g.sensors := by
      rw [hsens, get_sensors_for_location] at hs
      exact (List.mem_filter.mp hs).1
    exact hw s hsg
  rw [tally_location, tallyCore_eq_runOccs]
  set st := runOccs g.tags g.minimum_sensor_weight team l with hst
  rw [foldl_add_eq_sum_map, zero_add]
  have hmapf : st.verified_tags.map st.max_score_per_tag =
      st.verified_tags.map (best_points sensorsAt) := by
    apply List.map_congr_left
    intro r hr
    rw [hst] at hr
    have hmem := (runOccs_mem_verified g.tags g.minimum_sensor_weight team l hwocc r).mp hr
    rw [hst, runOccs_max, if_pos hmem.1, hl, occM_eq_best_points]
  rw [hmapf]
  have hperm : st.verified_tags.Perm
      (((sensorsAt.flatMap Sensor.latest_reading).dedup).filter (fun r =>
        tagTeamHas g.tags team r &&
          decide (g.minimum_sensor_weight ≤ per_occurrence_weight sensorsAt r))) := by
    rw [List.perm_ext_iff_of_nodup (hst ▸ runOccs_nodup g.tags g.minimum_sensor_weight team l)
      (List.Nodup.filter _ (List.nodup_dedup _))]
    intro r
    rw [hst, runOccs_mem_verified g.tags g.minimum_sensor_weight team l hwocc r,
      List.mem_filter, List.mem_dedup]
    constructor
    · rintro ⟨h1, h2, h3⟩
      refine ⟨?_, ?_⟩
      · rw [hl, occ_rfids] at h2
        exact h2
      · rw [Bool.and_eq_true]
        refine ⟨h1, decide_eq_true ?_⟩
        rw [hl, occW_eq_per_occurrence] at h3
        exact h3
    · rintro ⟨h2, hb⟩
      rw [Bool.and_eq_true] at hb
      refine ⟨hb.1, ?_, ?_⟩
      · rw [hl, occ_rfids]
        exact h2
      · have h3 := of_decide_eq_true hb.2
        rw [hl, occW_eq_per_occurrence]
        exact h3
  rw [tally_location_per_occurrence]
  exact (hperm.map (best_points sensorsAt)).sum_eq

/-!
Lemmas and claim theorems: event detector frame conditions.
-/

/-- The timeout check never modifies the game. -/
theorem timeout_check_snd (g : Game) (now : ℚ) : (timeout_check g now).2 = g := by
  rw [timeout_check]
  split_ifs <;> rfl

/-- Reflexivity of `same_scores_and_state`. -/
theorem same_scores_refl (g : Game) : same_scores_and_state g g := by
  rw [same_scores_and_state]
  exact ⟨rfl, rfl, rfl, rfl, rfl, rfl, rfl, rfl, rfl, rfl, rfl, rfl, rfl⟩

/-- Transitivity of `same_scores_and_state`. -/
theorem same_scores_trans {g1 g2 g3 : Game} (h12 : same_scores_and_state g1 g2)
    (h23 : same_scores_and_state g2 g3) : same_scores_and_state g1 g3 := by
  rw [same_scores_and_state] at h12 h23 ⊢
  obtain ⟨a1, a2, a3, a4, a5, a6, a7, a8, a9, a10, a11, a12, a13⟩ := h12
  obtain ⟨b1, b2, b3, b4, b5, b6, b7, b8, b9, b10, b11, b12, b13⟩ := h23
  exact ⟨b1.trans a1, b2.trans a2, b3.trans a3, b4.trans a4, b5.trans a5, b6.trans a6,
    b7.trans a7, b8.trans a8, b9.trans a9, b10.trans a10, b11.trans a11, b12.trans a12,
    b13.trans a13⟩

/-- Re-reading the sensors preserves every frame field: only the cached
readings and the sensor-read timestamp change. -/
theorem read_sensors_frame (g : Game) (reads : String → List String) (now : ℚ) :
    same_scores_and_state g (read_sensors g reads now) := by
  rw [same_scores_and_state, read_sensors]
  refine ⟨rfl, rfl, rfl, rfl, rfl, rfl, rfl, rfl, rfl, rfl, rfl, rfl, ?_⟩
  show (g.sensors.map fun s => { s with latest_reading := reads s.id }).map sensorFrame =
    g.sensors.map sensorFrame
  rw [List.map_map]
  apply List.map_congr_left
  intro s _
  rfl

/-- The sensor-and-timeout phase of `get_event` preserves every frame field. -/
theorem get_event_after_buttons_frame (g : Game) (now : ℚ) (reads : String → List String) :
    same_scores_and_state g (get_event_after_buttons g now reads).2 := by
  have hg2 := read_sensors_frame g reads now
  simp only [get_event_after_buttons]
  split_ifs <;> simp only [timeout_check_snd] <;>
    first
      | exact same_scores_refl g
      | exact hg2

/-- C9: whatever event `get_event` returns, it leaves both game scores, both
turn scores, `turn_number`, `time_of_turn_start`, the current `GameState`, the
roster, the threshold, and all polling configuration unchanged, and keeps every
sensor's identity fields; the only game data it may mutate are the last-read
timestamps, `last_board_played`, and the sensors' cached readings. -/
theorem claim_C9_theorem (g : Game) (now : ℚ) (buttons : ButtonState)
    (reads : String → List String) :
    same_scores_and_state g (get_event g now buttons reads).2 := by
  rw [get_event]
  split_ifs with h1 h2 h3
  · exact same_scores_refl g
  · exact same_scores_refl g
  · exact same_scores_trans (same_scores_refl g)
      (get_event_after_buttons_frame { g with time_of_last_button_read := now } now reads)
  · exact get_event_after_buttons_frame g now reads

/-- The sensor-and-timeout phase of `get_event` can only produce a tag-change,
timeout, or no-change event, never a button press. -/
theorem get_event_after_buttons_ne_button (g : Game) (now : ℚ) (reads : String → List String) :
    (get_event_after_buttons g now reads).1 ≠ GameEvent.BUTTON_PRESSED := by
  simp only [get_event_after_buttons, timeout_check]
  split_ifs <;> simp

/-- C6: when the button-poll interval and the sensor-poll interval have both
elapsed, the turn has lasted more than 4 seconds, a board button reads as
pressed, and the re-read sensors would report a tag change, `get_event`
returns `BUTTON_PRESSED`, not a tag-change event. -/
theorem claim_C6_theorem (g : Game) (now : ℚ) (buttons : ButtonState)
    (reads : String → List String)
    (hdur : 4 < now - g.time_of_turn_start)
    (hbtn : g.button_polling_interval_in_seconds ≤ now - g.time_of_last_button_read)
    (hsen : g.rfid_polling_interval_in_seconds ≤ now - g.time_of_last_sensor_read)
    (hpressed : buttons.board1 = true ∨ buttons.board2 = true)
    (htag : (get_event_after_buttons g now reads).1 = GameEvent.TAGS_CHANGED_ON_BOARD_1 ∨
      (get_event_after_buttons g now reads).1 = GameEvent.TAGS_CHANGED_ON_BOARD_2) :
    (get_event g now buttons reads).1 = GameEvent.BUTTON_PRESSED := by
  rw [get_event, if_pos (And.intro hdur hbtn)]
  rcases hpressed with h | h <;> simp [h]

/-- C6 witness: a concrete game in which both polls are due, the turn is 10
seconds old, board 1's button is pressed, and the sensors would report a tag
change; `get_event` still returns `BUTTON_PRESSED`. -/
theorem claim_C6_witness :
    (4 < (10 : ℚ) - pollDemoGame.time_of_turn_start) ∧
    (pollDemoGame.button_polling_interval_in_seconds ≤ 10 - pollDemoGame.time_of_last_button_read) ∧
    (pollDemoGame.rfid_polling_interval_in_seconds ≤ 10 - pollDemoGame.time_of_last_sensor_read) ∧
    (({ board1 := true, board2 := false, quit_signal := false } : ButtonState).board1 = true ∨
      ({ board1 := true, board2 := false, quit_signal := false } : ButtonState).board2 = true) ∧
    ((get_event_after_buttons pollDemoGame 10 (fun _ => ["A1"])).1 =
        GameEvent.TAGS_CHANGED_ON_BOARD_1 ∨
      (get_event_after_buttons pollDemoGame 10 (fun _ => ["A1"])).1 =
        GameEvent.TAGS_CHANGED_ON_BOARD_2) ∧
    (get_event pollDemoGame 10 { board1 := true, board2 := false, quit_signal := false }
      (fun _ => ["A1"])).1 = GameEvent.BUTTON_PRESSED := by
  have h1 : 4 < (10 : ℚ) - pollDemoGame.time_of_turn_start := by
    norm_num [pollDemoGame, baseGame]
  have h2 : pollDemoGame.button_polling_interval_in_seconds ≤
      10 - pollDemoGame.time_of_last_button_read := by
    norm_num [pollDemoGame, baseGame]
  have h3 : pollDemoGame.rfid_polling_interval_in_seconds ≤
      10 - pollDemoGame.time_of_last_sensor_read := by
    norm_num [pollDemoGame, baseGame]
  have h4 : (({ board1 := true, board2 := false, quit_signal := false } : ButtonState).board1 = true ∨
      ({ board1 := true, board2 := false, quit_signal := false } : ButtonState).board2 = true) :=
    Or.inl rfl
  have h5 : ((get_event_after_buttons pollDemoGame 10 (fun _ => ["A1"])).1 =
        GameEvent.TAGS_CHANGED_ON_BOARD_1 ∨
      (get_event_after_buttons pollDemoGame 10 (fun _ => ["A1"])).1 =
        GameEvent.TAGS_CHANGED_ON_BOARD_2) := by
    refine Or.inl ?_
    norm_num +decide [get_event_after_buttons, read_sensors, timeout_check, tally_turn_board_1,
      tally_turn_board_2, tally_location, tallyCore, sensorStep, tagStep, initTallyState,
      get_sensors_for_location, pollDemoGame, baseGame, List.filter_cons, List.filter_nil,
      List.foldl_cons, List.foldl_nil, List.head?_cons, List.head?_nil, List.any_cons,
      List.any_nil]
  exact ⟨h1, h2, h3, h4, h5,
    claim_C6_theorem pollDemoGame 10 _ _ h1 h2 h3 h4 h5⟩

/-- C7: if the current turn has lasted at most 4 seconds, `get_event` never
returns `BUTTON_PRESSED`, whatever the button state and poll timers. -/
theorem claim_C7_theorem (g : Game) (now : ℚ) (buttons : ButtonState)
    (reads : String → List String) (hdur : now - g.time_of_turn_start ≤ 4) :
    (get_event g now buttons reads).1 ≠ GameEvent.BUTTON_PRESSED := by
  rw [get_event, if_neg]
  · exact get_event_after_buttons_ne_button g now reads
  · rintro ⟨hlt, _⟩
    exact absurd hdur (not_le.mpr hlt)

/-- C7 witness: two seconds into a turn, a pressed button (and even a quit
signal) yields no `BUTTON_PRESSED` event. -/
theorem claim_C7_witness :
    ((2 : ℚ) - baseGame.time_of_turn_start ≤ 4) ∧
    (get_event baseGame 2 { board1 := true, board2 := true, quit_signal := true }
      (fun _ => [])).1 ≠ GameEvent.BUTTON_PRESSED := by
  have h : (2 : ℚ) - baseGame.time_of_turn_start ≤ 4 := by norm_num [baseGame]
  exact ⟨h, claim_C7_theorem baseGame 2 _ _ h⟩

/-!
Claim theorems: turn and score bookkeeping.
-/

/-- C2: after `end_turn`, both turn scores are 0, `turn_number` grew by exactly
1, and the game score of exactly the winning side grew by the turn margin: a
positive margin credits team A with the margin and leaves team B's game score
unchanged; otherwise (including a tie) team B is credited with the absolute
margin and team A's game score is unchanged. -/
theorem claim_C2_theorem (g : Game) (now : ℚ) :
    (end_turn g now).team_a_turn_score = 0 ∧
    (end_turn g now).team_b_turn_score = 0 ∧
    (end_turn g now).turn_number = g.turn_number + 1 ∧
    (if 0 < g.team_a_turn_score - g.team_b_turn_score then
      (end_turn g now).team_a_game_score =
          g.team_a_game_score + (g.team_a_turn_score - g.team_b_turn_score) ∧
        (end_turn g now).team_b_game_score = g.team_b_game_score
    else
      (end_turn g now).team_b_game_score =
          g.team_b_game_score + |g.team_a_turn_score - g.team_b_turn_score| ∧
        (end_turn g now).team_a_game_score = g.team_a_game_score) := by
  by_cases h : 0 < g.team_a_turn_score - g.team_b_turn_score
  · simp [end_turn, h]
  · simp [end_turn, h]

/-- C3: `have_reached_winning_score` holds exactly when either total score has
reached 21, where each team's total score is its game score plus the
nonnegative part of its turn margin; in particular a trailing team's turn score
contributes nothing to its total score. -/
theorem claim_C3_theorem (g : Game) :
    (have_reached_winning_score g = true ↔
      21 ≤ total_score g Team.A ∨ 21 ≤ total_score g Team.B) ∧
    total_score g Team.A =
      g.team_a_game_score + max 0 (g.team_a_turn_score - g.team_b_turn_score) ∧
    total_score g Team.B =
      g.team_b_game_score + max 0 (g.team_b_turn_score - g.team_a_turn_score) ∧
    (g.team_a_turn_score ≤ g.team_b_turn_score → total_score g Team.A = g.team_a_game_score) ∧
    (g.team_b_turn_score ≤ g.team_a_turn_score → total_score g Team.B = g.team_b_game_score) := by
  refine ⟨?_, ?_, ?_, ?_, ?_⟩
  · simp [have_reached_winning_score]
  · simp [total_score]
  · simp [total_score]
  · intro h
    have hx : g.team_a_turn_score - g.team_b_turn_score ≤ 0 := by omega
    simp [total_score, max_eq_left hx]
  · intro h
    have hx : g.team_b_turn_score - g.team_a_turn_score ≤ 0 := by omega
    simp [total_score, max_eq_left hx]

/-- C3 witness: in the initial game the turn scores tie at 0, so team A's
total score is exactly its game score. -/
theorem claim_C3_witness :
    baseGame.team_a_turn_score ≤ baseGame.team_b_turn_score ∧
    total_score baseGame Team.A = baseGame.team_a_game_score := by
  have h : baseGame.team_a_turn_score ≤ baseGame.team_b_turn_score := by
    norm_num [baseGame]
  exact ⟨h, (claim_C3_theorem baseGame).2.2.2.1 h⟩

/-- C4 (counterexample to the claim as stated): from a game whose stored turn
scores (5 : 0) do not match the tallies of the cached readings (all 0),
a single `update_turn_score` call strictly decreases team A's total score. -/
theorem claim_C4_counterexample :
    total_score (update_turn_score staleTurnGame 1) Team.A < total_score staleTurnGame Team.A := by
  norm_num +decide [update_turn_score, total_score, tally_turn_board_1, tally_location,
    tallyCore, get_sensors_for_location, initTallyState, staleTurnGame, baseGame,
    List.filter_nil, List.foldl_nil]

/-- C4 (amended): if the stored turn scores already agree with the selected
board's tallies under the cached readings — as they do after any previous
`update_turn_score` for the same board with no intervening sensor read — then
another `update_turn_score` call leaves both teams' total scores unchanged, so
it never decreases them. -/
theorem claim_C4_theorem (g : Game) (board_number : ℕ) (team : Team)
    (ha : g.team_a_turn_score =
      (if board_number = 1 then tally_turn_board_1 g Team.A else tally_turn_board_2 g Team.A))
    (hb : g.team_b_turn_score =
      (if board_number = 1 then tally_turn_board_1 g Team.B else tally_turn_board_2 g Team.B)) :
    total_score g team ≤ total_score (update_turn_score g board_number) team := by
  have heq : total_score (update_turn_score g board_number) team = total_score g team := by
    by_cases h : board_number = 1
    · rw [if_pos h] at ha hb
      simp [update_turn_score, h, total_score, ← ha, ← hb]
    · rw [if_neg h] at ha hb
      simp [update_turn_score, h, total_score, ← ha, ← hb]
  rw [heq]

/-- C4 witness: the initial game's turn scores (0) match its board-1 tallies
(no sensors, so 0), and a repeated `update_turn_score` does not decrease team
A's total score. -/
theorem claim_C4_witness :
    baseGame.team_a_turn_score =
      (if 1 = 1 then tally_turn_board_1 baseGame Team.A else tally_turn_board_2 baseGame Team.A) ∧
    baseGame.team_b_turn_score =
      (if 1 = 1 then tally_turn_board_1 baseGame Team.B else tally_turn_board_2 baseGame Team.B) ∧
    total_score baseGame Team.A ≤ total_score (update_turn_score baseGame 1) Team.A := by
  have ha : baseGame.team_a_turn_score =
      (if 1 = 1 then tally_turn_board_1 baseGame Team.A else tally_turn_board_2 baseGame Team.A) := by
    norm_num +decide [tally_turn_board_1, tally_location, tallyCore, get_sensors_for_location,
      initTallyState, baseGame, List.filter_nil, List.foldl_nil]
  have hb : baseGame.team_b_turn_score =
      (if 1 = 1 then tally_turn_board_1 baseGame Team.B else tally_turn_board_2 baseGame Team.B) := by
    norm_num +decide [tally_turn_board_1, tally_location, tallyCore, get_sensors_for_location,
      initTallyState, baseGame, List.filter_nil, List.foldl_nil]
  exact ⟨ha, hb, claim_C4_theorem baseGame 1 Team.A ha hb⟩

/-!
Claim theorems: board clearing.
-/

/-- Replacing the readings of board-2 sensors does not change which sensors a
board-1 location filter selects, nor those sensors' contents. -/
theorem get_sensors_set_board_2 (g : Game) (f : Sensor → List String) (loc : Location)
    (h1 : loc ≠ Location.BOARD_2) (h2 : loc ≠ Location.HOLE_2) :
    get_sensors_for_location (set_board_2_readings g f) loc = get_sensors_for_location g loc := by
  rw [get_sensors_for_location, get_sensors_for_location, set_board_2_readings]
  show (g.sensors.map (fun s =>
      if s.location = Location.BOARD_2 ∨ s.location = Location.HOLE_2 then
        { s with latest_reading := f s } else s)).filter (fun s => decide (s.location = loc)) =
    g.sensors.filter (fun s => decide (s.location = loc))
  induction g.sensors with
  | nil => rfl
  | cons s rest ih =>
      rw [List.map_cons, List.filter_cons, List.filter_cons, ih]
      by_cases hs : s.location = Location.BOARD_2 ∨ s.location = Location.HOLE_2
      · rw [if_pos hs]
        have hd : decide (s.location = loc) = false := by
          rcases hs with h | h
          · simp [h, Ne.symm h1]
          · simp [h, Ne.symm h2]
        rw [hd, if_neg (by simp : ¬(false = true)), if_neg (by simp : ¬(false = true))]
      · rw [if_neg hs]

/-- Computing `tally_location` at a non-board-2 location ignores board-2 readings. -/
theorem tally_location_set_board_2 (g : Game) (f : Sensor → List String) (team : Team)
    (loc : Location) (h1 : loc ≠ Location.BOARD_2) (h2 : loc ≠ Location.HOLE_2) :
    tally_location (set_board_2_readings g f) team loc = tally_location g team loc := by
  rw [tally_location, tally_location, get_sensors_set_board_2 g f loc h1 h2]
  rfl

/-- C5: `are_boards_clear` holds exactly when the two board-1 turn tallies sum
to zero, and readings cached by the sensors at board 2's locations have no
effect on its result. -/
theorem claim_C5_theorem (g : Game) (f : Sensor → List String) :
    (are_boards_clear g = true ↔
      tally_turn_board_1 g Team.A + tally_turn_board_1 g Team.B = 0) ∧
    are_boards_clear (set_board_2_readings g f) = are_boards_clear g := by
  constructor
  · rw [are_boards_clear]
    simp only [beq_iff_eq]
    exact eq_comm
  · have hb1 : ∀ team, tally_turn_board_1 (set_board_2_readings g f) team =
        tally_turn_board_1 g team := by
      intro team
      rw [tally_turn_board_1, tally_turn_board_1,
        tally_location_set_board_2 g f team Location.BOARD_1 (by decide) (by decide),
        tally_location_set_board_2 g f team Location.HOLE_1 (by decide) (by decide)]
    rw [are_boards_clear, are_boards_clear, hb1, hb1]

/-- C8: in the `TURN_OVER` state, if the board-1 tallies of the cached
readings sum to zero, the handler returns `BOARD_CLEAR` whatever event was
polled. -/
theorem claim_C8_theorem (g : Game) (event : GameEvent)
    (h : tally_turn_board_1 g Team.A + tally_turn_board_1 g Team.B = 0) :
    process_turn_over_state g event = GameState.BOARD_CLEAR := by
  have hc : are_boards_clear g = true := by
    rw [are_boards_clear, h]
    rfl
  rw [process_turn_over_state, if_pos hc]

/-- C8 witness: a sensorless game tallies 0 on board 1 and its `TURN_OVER`
handler maps a `TIMEOUT` event to `BOARD_CLEAR`. -/
theorem claim_C8_witness :
    tally_turn_board_1 baseGame Team.A + tally_turn_board_1 baseGame Team.B = 0 ∧
    process_turn_over_state baseGame GameEvent.TIMEOUT = GameState.BOARD_CLEAR := by
  have h : tally_turn_board_1 baseGame Team.A + tally_turn_board_1 baseGame Team.B = 0 := by
    norm_num +decide [tally_turn_board_1, tally_location, tallyCore, get_sensors_for_location,
      initTallyState, baseGame, List.filter_nil, List.foldl_nil]
  exact ⟨h, claim_C8_theorem baseGame GameEvent.TIMEOUT h⟩

/-!
Claim theorems: duplicate readings and the per-sensor weight reading of the
spec.
-/

/-- C1 (counterexample to the claim as stated): with one board-1 sensor of
weight 1/2 whose cached reading lists the team-A rfid "A1" twice and threshold
1, the code credits the tag (`tally_location` returns 1), although the sum of
the weights of the sensors that read it is only 1/2, strictly below the
threshold, so the spec-side per-sensor tally returns 0. -/
theorem claim_C1_counterexample :
    tally_location halfWeightGame Team.A Location.BOARD_1 = 1 ∧
    tally_location_specform halfWeightGame Team.A Location.BOARD_1 = 0 ∧
    sensor_weight_sum (get_sensors_for_location halfWeightGame Location.BOARD_1) "A1" = 1 / 2 ∧
    halfWeightGame.minimum_sensor_weight = 1 := by
  refine ⟨?_, ?_, ?_, rfl⟩
  · norm_num +decide [tally_location, tallyCore, sensorStep, tagStep, initTallyState,
      get_sensors_for_location, halfWeightGame, baseGame, List.filter_cons, List.filter_nil,
      List.foldl_cons, List.foldl_nil, List.head?_cons, List.any_cons, List.any_nil]
  · norm_num +decide [tally_location_specform, get_sensors_for_location, halfWeightGame,
      baseGame, tagTeamHas, sensor_weight_sum, best_points, List.dedup, List.filter_cons,
      List.filter_nil, List.any_cons, List.any_nil]
  · norm_num +decide [sensor_weight_sum, get_sensors_for_location, halfWeightGame, baseGame,
      List.filter_cons, List.filter_nil]

/-- C1 witness: the counterexample game has nonnegative sensor weights, and on
it `tally_location` agrees with the amended per-occurrence tally. -/
theorem claim_C1_witness :
    (∀ s ∈ halfWeightGame.sensors, 0 ≤ s.weight) ∧
    tally_location halfWeightGame Team.A Location.BOARD_1 =
      tally_location_per_occurrence halfWeightGame Team.A Location.BOARD_1 := by
  have hw : ∀ s ∈ halfWeightGame.sensors, 0 ≤ s.weight := by
    intro s hs
    have hse : s = { id := "S1", weight := 1 / 2, location := Location.BOARD_1, latest_reading := ["A1", "A1"], points_to_award := 1 } := by
      simpa [halfWeightGame, baseGame] using hs
    rw [hse]
    norm_num
  exact ⟨hw, claim_C1_theorem halfWeightGame Team.A Location.BOARD_1 hw⟩

/-- C10: a single sensor's reading that lists the same rfid twice accumulates
the sensor's weight once per occurrence: with weight 1/2 — strictly below the
threshold 1 — and the reading `["A1", "A1"]`, the per-occurrence weight of
"A1" is 1 and the tag is credited, `tally_location` returning its 1 point. -/
theorem claim_C10_theorem :
    tally_location halfWeightGame Team.A Location.BOARD_1 = 1 ∧
    per_occurrence_weight (get_sensors_for_location halfWeightGame Location.BOARD_1) "A1" = 1 ∧
    sensor_weight_sum (get_sensors_for_location halfWeightGame Location.BOARD_1) "A1" = 1 / 2 ∧
    (1 / 2 : ℚ) < halfWeightGame.minimum_sensor_weight := by
  refine ⟨?_, ?_, ?_, ?_⟩
  · norm_num +decide [tally_location, tallyCore, sensorStep, tagStep, initTallyState,
      get_sensors_for_location, halfWeightGame, baseGame, List.filter_cons, List.filter_nil,
      List.foldl_cons, List.foldl_nil, List.head?_cons, List.any_cons, List.any_nil]
  · norm_num +decide [per_occurrence_weight, get_sensors_for_location, halfWeightGame,
      baseGame, List.filter_cons, List.filter_nil, List.count_cons, List.count_nil]
  · norm_num +decide [sensor_weight_sum, get_sensors_for_location, halfWeightGame, baseGame,
      List.filter_cons, List.filter_nil]
  · norm_num [halfWeightGame, baseGame]
